import Mathlib

/-!
Verification of the EchoSphere Chat Protocol core against its sources.

The development shallowly embeds the Python sources:
  * shared/packets/types.py        : PacketType, ResponseCode
  * src/shared/packets/base_packet.py : Packet.__init__ / serialize /
    deserialize_header / from_payload
  * src/shared/packets/definitions.py : the five packet classes
  * shared/packets/factory.py      : packet_factory
  * shared/chat_protocol.py        : the data_received drain loop and the
    outstanding-response queue
  * shared/validators.py           : valid_username / valid_message
  * server/packet_handlers.py      : the per-packet dispatch
  * server/server_networking.py    : Connection.is_alive, monitor_heartbeats,
    on_connection_close
  * server/main.py                 : ServerApplication event handlers

Python `bytes` values are modelled as `List Nat` (each element < 256 where it
matters), Python `str` values as `List Char`, `None`-able values as `Option`,
and raising code as `Except`.
-/

set_option maxRecDepth 8192

namespace EchoSphere

/-! ### Wire enums (shared/packets/types.py) -/

/-- PacketType from shared/packets/types.py. -/
inductive PacketType where
  | heartbeat
  | login
  | message
  | response
  | logout
deriving DecidableEq, Repr

/-- The integer tag of a packet type (the IntEnum value). -/
def PacketType.tag : PacketType → Nat
  | .heartbeat => 1
  | .login => 2
  | .message => 3
  | .response => 4
  | .logout => 5

/-- PacketType(n): recover the enum member from its integer value;
fails (ValueError in Python) on an unknown value. -/
def PacketType.ofTag : Nat → Option PacketType
  | 1 => some .heartbeat
  | 2 => some .login
  | 3 => some .message
  | 4 => some .response
  | 5 => some .logout
  | _ => none

/-- ResponseCode from shared/packets/types.py. -/
inductive ResponseCode where
  | ok
  | invalidUsername
  | takenUsername
  | invalidMessage
  | wrongPassword
  | genericError
deriving DecidableEq, Repr

/-- The integer value of a response code. -/
def ResponseCode.toNat : ResponseCode → Nat
  | .ok => 0
  | .invalidUsername => 1
  | .takenUsername => 2
  | .invalidMessage => 3
  | .wrongPassword => 4
  | .genericError => 5

/-- ResponseCode(n): recover the enum member from its integer value;
fails (ValueError in Python) on an unknown value. -/
def ResponseCode.fromValue : Nat → Option ResponseCode
  | 0 => some .ok
  | 1 => some .invalidUsername
  | 2 => some .takenUsername
  | 3 => some .invalidMessage
  | 4 => some .wrongPassword
  | 5 => some .genericError
  | _ => none

/-! ### Protocol errors (shared/errors.py) -/

/-- The exception classes of shared/errors.py that the codec raises.  In the
Python hierarchy IncompleteHeaderError, UnknownPacketError and
InvalidPayloadError all subclass BaseProtocolError; here each raise site is
modelled by the constructor of the exact class it instantiates. -/
inductive ProtocolError where
  | incompleteHeader
  | unknownPacket
  | invalidPayload
  | baseProtocol
deriving DecidableEq, Repr

instance {ε α : Type} [DecidableEq ε] [DecidableEq α] : DecidableEq (Except ε α) := fun a b =>
  match a, b with
  | .error e1, .error e2 => decidable_of_iff (e1 = e2) (by simp)
  | .ok v1, .ok v2 => decidable_of_iff (v1 = v2) (by simp)
  | .error _, .ok _ => isFalse (fun hc => Except.noConfusion hc)
  | .ok _, .error _ => isFalse (fun hc => Except.noConfusion hc)

/-! ### UTF-8 (Python str.encode and bytes.decode)

Python `str` is a sequence of Unicode scalar values; `s.encode('utf-8')`
produces the standard UTF-8 bytes and `b.decode('utf-8')` is its strict
partial inverse (rejecting malformed, overlong and surrogate sequences).
Both are modelled here byte-for-byte. -/

/-- UTF-8 encoding of a single Unicode scalar value. -/
def utf8EncodeChar (n : Nat) : List Nat :=
  if n < 0x80 then [n]
  else if n < 0x800 then [0xC0 + n / 64, 0x80 + n % 64]
  else if n < 0x10000 then [0xE0 + n / 4096, 0x80 + n / 64 % 64, 0x80 + n % 64]
  else [0xF0 + n / 262144, 0x80 + n / 4096 % 64, 0x80 + n / 64 % 64, 0x80 + n % 64]

/-- str.encode('utf-8') on a string modelled as a list of characters. -/
def utf8Encode (s : List Char) : List Nat :=
  s.flatMap (fun c => utf8EncodeChar c.toNat)

/-- Decode one UTF-8 sequence whose lead byte is b and whose following bytes
start the list l.  Returns the scalar value and the number of continuation
bytes consumed, or none on a malformed sequence (bad lead byte, bad or
missing continuation bytes, overlong form, surrogate, value above 0x10FFFF).
Absent bytes are read as 0, which fails every continuation-range check. -/
def utf8DecodeStep (b : Nat) (l : List Nat) : Option (Nat × Nat) :=
  if b < 0x80 then some (b, 0)
  else if b < 0xE0 then
    if 0xC2 ≤ b ∧ 0x80 ≤ l.getD 0 0 ∧ l.getD 0 0 < 0xC0 then
      some ((b - 0xC0) * 64 + (l.getD 0 0 - 0x80), 1)
    else none
  else if b < 0xF0 then
    if (0x80 ≤ l.getD 0 0 ∧ l.getD 0 0 < 0xC0) ∧ (0x80 ≤ l.getD 1 0 ∧ l.getD 1 0 < 0xC0) ∧
        (b = 0xE0 → 0xA0 ≤ l.getD 0 0) ∧ (b = 0xED → l.getD 0 0 < 0xA0) then
      some ((b - 0xE0) * 4096 + (l.getD 0 0 - 0x80) * 64 + (l.getD 1 0 - 0x80), 2)
    else none
  else if b < 0xF5 then
    if (0x80 ≤ l.getD 0 0 ∧ l.getD 0 0 < 0xC0) ∧ (0x80 ≤ l.getD 1 0 ∧ l.getD 1 0 < 0xC0) ∧
        (0x80 ≤ l.getD 2 0 ∧ l.getD 2 0 < 0xC0) ∧
        (b = 0xF0 → 0x90 ≤ l.getD 0 0) ∧ (b = 0xF4 → l.getD 0 0 < 0x90) then
      some ((b - 0xF0) * 262144 + (l.getD 0 0 - 0x80) * 4096 + (l.getD 1 0 - 0x80) * 64 +
        (l.getD 2 0 - 0x80), 3)
    else none
  else none

/-- bytes.decode('utf-8'): strict UTF-8 decoding.  Returns none exactly when
CPython raises UnicodeDecodeError. -/
def utf8Decode (l : List Nat) : Option (List Char) :=
  match l with
  | [] => some []
  | b :: l =>
    match utf8DecodeStep b l with
    | some (n, k) => (utf8Decode (l.drop k)).map (fun cs => Char.ofNat n :: cs)
    | none => none
termination_by l.length
decreasing_by
  simp [List.length_drop]
  omega

/-! ### Python strings -/

/-- A Python str, modelled as its list of Unicode scalar values. -/
abbrev PyStr := List Char

/-- Python `x or ''` on an optional string: None and the empty string both
collapse to the empty string. -/
def orEmpty : Option PyStr → PyStr
  | none => []
  | some s => s

/-- Python str.split(sep) with a one-character separator and no maxsplit:
splits on every occurrence of the separator.  ''.split(sep) is ['']. -/
def pySplit (sep : Char) : PyStr → List PyStr
  | [] => [[]]
  | c :: rest =>
    if c = sep then [] :: pySplit sep rest
    else
      match pySplit sep rest with
      | h :: t => (c :: h) :: t
      | [] => [[c]]

/-! ### Packets (src/shared/packets/definitions.py)

Each Python packet object is determined by its constructor fields; the
payload and header attributes set by Packet.__init__ are recomputed by
Packet.payload and Packet.wire below, exactly as __init__ computes them. -/

/-- The five packet classes of src/shared/packets/definitions.py, identified
by their constructor fields. -/
inductive Packet where
  | heartbeat
  | login (username : PyStr) (server_password : Option PyStr)
  | message (username : Option PyStr) (message : PyStr)
  | response (response_code : ResponseCode)
  | logout
deriving DecidableEq, Repr

/-- The PACKET_TYPE class attribute set by @register_packet. -/
def Packet.packetType : Packet → PacketType
  | .heartbeat => .heartbeat
  | .login _ _ => .login
  | .message _ _ => .message
  | .response _ => .response
  | .logout => .logout

/-- The MAX_PAYLOAD_LENGTH class attribute of each packet class. -/
def PacketType.maxPayloadLength : PacketType → Nat
  | .heartbeat => 0
  | .login => 256
  | .message => 4096
  | .response => 1
  | .logout => 0

/-- The payload bytes each subclass passes to Packet.__init__:
HeartbeatPacket and LogoutPacket pass b'',
LoginPacket passes (username + \x7c + (server_password or '')).encode('utf-8'),
MessagePacket passes ((username or '') + \x7c + message).encode('utf-8'),
ResponsePacket passes bytes([response_code]). -/
def Packet.payload : Packet → List Nat
  | .heartbeat => []
  | .login u pw => utf8Encode (u ++ '|' :: orEmpty pw)
  | .message u m => utf8Encode (orEmpty u ++ '|' :: m)
  | .response c => [c.toNat]
  | .logout => []

/-- The length check in Packet.__init__: raises InvalidPayloadError when the
payload exceeds MAX_PAYLOAD_LENGTH, otherwise yields the constructed packet. -/
def packetInit (p : Packet) : Except ProtocolError Packet :=
  if p.payload.length > p.packetType.maxPayloadLength then .error .invalidPayload
  else .ok p

/-- The serialized bytes header + payload, with the header
struct.pack('>BBH', 1, PACKET_TYPE, len(payload)) as set in Packet.__init__. -/
def Packet.wire (p : Packet) : List Nat :=
  [1, p.packetType.tag, p.payload.length / 256, p.payload.length % 256] ++ p.payload

/-- Packet construction (Packet.__init__) followed by Packet.serialize:
fails with InvalidPayloadError when the payload exceeds the bound. -/
def Packet.serialize (p : Packet) : Except ProtocolError (List Nat) :=
  (packetInit p).map Packet.wire

/-- Packet.deserialize_header: IncompleteHeaderError below 4 bytes, then
struct.unpack('>BBH') of the first four bytes (the version byte is read but
never checked) and PacketType(packet_type), UnknownPacketError on failure. -/
def deserializeHeader (raw : List Nat) : Except ProtocolError (PacketType × Nat) :=
  match raw with
  | _version :: t :: l1 :: l2 :: _ =>
    match PacketType.ofTag t with
    | some pt => .ok (pt, l1 * 256 + l2)
    | none => .error .unknownPacket
  | _ => .error .incompleteHeader

/-- int.from_bytes(payload, byteorder='big'). -/
def intFromBytes (l : List Nat) : Nat :=
  l.foldl (fun acc b => acc * 256 + b) 0

/-- HeartbeatPacket._from_payload: ignores the payload, returns cls(). -/
def heartbeatFromPayloadInner (_payload : List Nat) : Except ProtocolError Packet :=
  packetInit .heartbeat

/-- LoginPacket._from_payload: payload.decode('utf-8').split(\x7c) must give
exactly two fields (a UnicodeDecodeError or unpacking ValueError becomes
InvalidPayloadError); an empty password field becomes None; then
cls(username, server_password) re-runs the Packet.__init__ length check. -/
def loginFromPayloadInner (payload : List Nat) : Except ProtocolError Packet :=
  match utf8Decode payload with
  | none => .error .invalidPayload
  | some s =>
    match pySplit '|' s with
    | [username, pw0] =>
      packetInit (.login username (if pw0 = [] then none else some pw0))
    | _ => .error .invalidPayload

/-- MessagePacket._from_payload: like LoginPacket but the first field is the
username, and an empty username field becomes None. -/
def messageFromPayloadInner (payload : List Nat) : Except ProtocolError Packet :=
  match utf8Decode payload with
  | none => .error .invalidPayload
  | some s =>
    match pySplit '|' s with
    | [u0, msg] =>
      packetInit (.message (if u0 = [] then none else some u0) msg)
    | _ => .error .invalidPayload

/-- ResponsePacket._from_payload: ResponseCode(int.from_bytes(payload, 'big')),
ValueError on an unknown code becomes InvalidPayloadError, then
cls(response_code). -/
def responseFromPayloadInner (payload : List Nat) : Except ProtocolError Packet :=
  match ResponseCode.fromValue (intFromBytes payload) with
  | some code => packetInit (.response code)
  | none => .error .invalidPayload

/-- LogoutPacket._from_payload: ignores the payload, returns cls(). -/
def logoutFromPayloadInner (_payload : List Nat) : Except ProtocolError Packet :=
  packetInit .logout

/-- The subclass-specific _from_payload reached through
PACKET_CLASS_MAP (shared/packets/factory.py registers all five classes). -/
def fromPayloadInner : PacketType → List Nat → Except ProtocolError Packet
  | .heartbeat, payload => heartbeatFromPayloadInner payload
  | .login, payload => loginFromPayloadInner payload
  | .message, payload => messageFromPayloadInner payload
  | .response, payload => responseFromPayloadInner payload
  | .logout, payload => logoutFromPayloadInner payload

/-- Packet.from_payload (base_packet.py): the MAX_PAYLOAD_LENGTH guard raises
InvalidPayloadError, then cls._from_payload(payload) runs inside
`try ... except Exception: raise BaseProtocolError`, so every exception it
raises — including the InvalidPayloadError a subclass raises for a bad
payload — surfaces as the generic BaseProtocolError. -/
def fromPayload (t : PacketType) (payload : List Nat) : Except ProtocolError Packet :=
  if payload.length > t.maxPayloadLength then .error .invalidPayload
  else
    match fromPayloadInner t payload with
    | .ok p => .ok p
    | .error _ => .error .baseProtocol

/-- packet_factory (shared/packets/factory.py): with at least HEADER_SIZE = 4
buffered bytes, parse the header, slice payload = buffer[4:4+length], and if
the slice is complete reconstruct the packet, returning it with the total
consumed size; otherwise (None, None), modelled as none. -/
def packetFactory (buffer : List Nat) : Except ProtocolError (Option (Packet × Nat)) :=
  if 4 ≤ buffer.length then
    match deserializeHeader (buffer.take 4) with
    | .error e => .error e
    | .ok (pt, len) =>
      if len ≤ ((buffer.drop 4).take len).length then
        match fromPayload pt ((buffer.drop 4).take len) with
        | .ok p => .ok (some (p, 4 + len))
        | .error e => .error e
      else .ok none
  else .ok none

/-- The drain loop of ChatProtocol.data_received (shared/chat_protocol.py):
repeatedly run packet_factory on the buffer, collecting emitted packets and
advancing the buffer past each consumed packet, until no complete packet
remains; a codec error aborts the loop (the protocol stores the error and
closes the transport). -/
def drainBuffer (buffer : List Nat) : Except ProtocolError (List Packet × List Nat) :=
  match h : packetFactory buffer with
  | .error e => .error e
  | .ok none => .ok ([], buffer)
  | .ok (some (p, n)) =>
    match drainBuffer (buffer.drop n) with
    | .error e => .error e
    | .ok (ps, rest) => .ok (p :: ps, rest)
termination_by buffer.length
decreasing_by
  by_cases hb : 4 ≤ buffer.length
  · rw [packetFactory, if_pos hb] at h
    rcases hd : deserializeHeader (buffer.take 4) with e | ⟨pt, len⟩ <;> rw [hd] at h
    · exact absurd h (by simp)
    · simp only at h
      by_cases hl : len ≤ ((buffer.drop 4).take len).length
      · rw [if_pos hl] at h
        rcases hf : fromPayload pt ((buffer.drop 4).take len) with e | q <;> rw [hf] at h
        · exact absurd h (by simp)
        · have hn : n = 4 + len := by
            have h' := h.symm
            simp at h'
            exact h'.2
          have hlen : ((buffer.drop 4).take len).length = min len (buffer.length - 4) := by
            simp [List.length_take, List.length_drop]
          rw [List.length_drop]
          omega
      · rw [if_neg hl] at h
        exact absurd h (by simp)
  · rw [packetFactory, if_neg hb] at h
    exact absurd h (by simp)

/-- Feeding the byte stream to ChatProtocol.data_received chunk by chunk:
each call appends its chunk to the residual buffer and drains it, carrying
the emitted packets and the remaining buffer. -/
def feedChunks (st : List Packet × List Nat) :
    List (List Nat) → Except ProtocolError (List Packet × List Nat)
  | [] => .ok st
  | chunk :: chunks =>
    match drainBuffer (st.2 ++ chunk) with
    | .error e => .error e
    | .ok (ps, rest) => feedChunks (st.1 ++ ps, rest) chunks

/-- A packet whose wire form decodes back to itself: every string field is
free of the \x7c separator, optional fields are not the empty string (which
the decoder maps to None), and the payload is within MAX_PAYLOAD_LENGTH. -/
def Packet.Canonical (p : Packet) : Prop :=
  p.payload.length ≤ p.packetType.maxPayloadLength ∧
  match p with
  | .login u pw => '|' ∉ u ∧ pw ≠ some [] ∧ '|' ∉ orEmpty pw
  | .message u m => u ≠ some [] ∧ '|' ∉ orEmpty u ∧ '|' ∉ m
  | _ => True

instance (p : Packet) : Decidable p.Canonical := by
  unfold Packet.Canonical
  cases p <;> exact inferInstance

/-! ### Python runtime pieces shared by the server models -/

/-- The Python exception classes raised by the server-side code paths under
verification: KeyError from dict access, TypeError from calling a function
with the wrong number of positional arguments, AttributeError from reading a
missing attribute, and the errors of server/errors.py and shared/errors.py
raised by Connection.is_alive and ChatProtocol. -/
inductive PyErr where
  | keyError
  | typeError
  | attributeError
  | userNotLoggedIn
  | connectionClosedError
deriving DecidableEq, Repr

/-- d[k] on a Python dict (keys unique): the value, or KeyError. -/
def pyDictGet {α β : Type} [DecidableEq α] (d : List (α × β)) (k : α) : Except PyErr β :=
  match d.find? (fun kv => decide (kv.1 = k)) with
  | some kv => .ok kv.2
  | none => .error .keyError

/-- d[k] = v on a Python dict (keys unique): replace or append. -/
def pyDictSet {α β : Type} [DecidableEq α] (d : List (α × β)) (k : α) (v : β) : List (α × β) :=
  if d.any (fun kv => decide (kv.1 = k)) then
    d.map (fun kv => if kv.1 = k then (k, v) else kv)
  else d ++ [(k, v)]

/-- del d[k] on a Python dict (keys unique): KeyError when k is absent. -/
def pyDictDel {α β : Type} [DecidableEq α] (d : List (α × β)) (k : α) :
    Except PyErr (List (α × β)) :=
  if d.any (fun kv => decide (kv.1 = k)) then .ok (d.filter (fun kv => decide (¬ kv.1 = k)))
  else .error .keyError

/-- Python truthiness of an optional string: None and '' are falsy. -/
def usernameTruthy : Option PyStr → Bool
  | none => false
  | some u => !u.isEmpty

/-! ### Validators (shared/validators.py) -/

/-- Membership in the regex character class [a-zA-Z0-9]. -/
def isAlnumChar (c : Char) : Bool :=
  (decide ('a' ≤ c) && decide (c ≤ 'z')) || (decide ('A' ≤ c) && decide (c ≤ 'Z')) ||
    (decide ('0' ≤ c) && decide (c ≤ '9'))

/-- re.fullmatch(r'[a-zA-Z0-9]+', s) as a truth value: one or more
characters, all from the class, matching the entire string. -/
def reFullmatchAlnumPlus (s : PyStr) : Bool :=
  !s.isEmpty && s.all isAlnumChar

/-- valid_username: (3 <= len(username) <= 12) and the fullmatch above. -/
def validUsername (u : PyStr) : Bool :=
  (decide (3 ≤ u.length) && decide (u.length ≤ 12)) && reFullmatchAlnumPlus u

/-- valid_message: 1 <= len(message) <= 1000. -/
def validMessage (m : PyStr) : Bool :=
  decide (1 ≤ m.length) && decide (m.length ≤ 1000)

/-! ### Server networking state (server/server_networking.py)

Protocol instances (the dict keys) are modelled by numeric ids; datetime
values by integer seconds. -/

/-- The error argument carried by a user_left event:
shared.errors.ConnectionClosedError is the only class the server ever
passes explicitly. -/
inductive SrvErr where
  | connectionClosed
deriving DecidableEq, Repr

/-- Events ServerNetworking emits towards the server application (the
message_received emission is modelled separately because its argument list
is the subject of claim C2). -/
inductive SrvEvent where
  | userJoined (proto : Nat) (username : PyStr)
  | userLeft (proto : Nat) (username : PyStr) (err : Option SrvErr)
deriving DecidableEq, Repr

/-- server_networking.Connection: stored username (None until login),
connection timestamp, optional last-heartbeat timestamp. -/
structure Connection where
  username : Option PyStr
  connectionTime : Int
  lastHeartbeat : Option Int
deriving DecidableEq, Repr

/-- The ServerNetworking state the packet handlers read and write:
server_password and the connections dict. -/
structure ServerNetworking where
  server_password : Option PyStr
  connections : List (Nat × Connection)
deriving DecidableEq, Repr

/-- ServerNetworking.username_is_taken: some connection holds the username. -/
def usernameIsTaken (net : ServerNetworking) (username : PyStr) : Bool :=
  net.connections.any (fun kv => decide (kv.2.username = some username))

/-- What one packet-handler run produced: response packets sent back on the
connection, events emitted, protocols closed, and the updated state. -/
structure HandlerResult where
  sent : List Packet
  events : List SrvEvent
  closed : List Nat
  net : ServerNetworking
deriving DecidableEq, Repr

/-- LoginPacketHandler.handle_packet (server/packet_handlers.py):
invalid username → INVALID_USERNAME; taken username → TAKEN_USERNAME;
password mismatch (Python != on Optional[str]) → WRONG_PASSWORD; otherwise
send OK, set the connection's username, emit user_joined. -/
def handleLoginPacket (net : ServerNetworking) (proto : Nat) (username : PyStr)
    (server_password : Option PyStr) : Except PyErr HandlerResult :=
  if !validUsername username then
    .ok ⟨[.response .invalidUsername], [], [], net⟩
  else if usernameIsTaken net username then
    .ok ⟨[.response .takenUsername], [], [], net⟩
  else if server_password ≠ net.server_password then
    .ok ⟨[.response .wrongPassword], [], [], net⟩
  else
    match pyDictGet net.connections proto with
    | .error e => .error e
    | .ok conn =>
      .ok ⟨[.response .ok], [.userJoined proto username], [],
        { net with connections :=
            pyDictSet net.connections proto { conn with username := some username } }⟩

/-- LogoutPacketHandler.handle_packet: when the connection has a username,
emit user_left(protocol, username, None), clear the username (marking the
leave as already reported), and close the connection; otherwise do nothing. -/
def handleLogoutPacket (net : ServerNetworking) (proto : Nat) : Except PyErr HandlerResult :=
  match pyDictGet net.connections proto with
  | .error e => .error e
  | .ok conn =>
    match conn.username with
    | none => .ok ⟨[], [], [], net⟩
    | some u =>
      .ok ⟨[], [.userLeft proto u none], [proto],
        { net with connections :=
            pyDictSet net.connections proto { conn with username := none } }⟩

/-- ServerNetworking.on_connection_close: if the connection still holds a
truthy username, emit user_left with the given error, defaulted to
ConnectionClosedError; then delete the connection from the dict. -/
def onConnectionClose (net : ServerNetworking) (proto : Nat) (err : Option SrvErr) :
    Except PyErr (List SrvEvent × ServerNetworking) :=
  match pyDictGet net.connections proto with
  | .error e => .error e
  | .ok conn =>
    let evs : List SrvEvent :=
      if usernameTruthy conn.username then
        [.userLeft proto (orEmpty conn.username) (some (err.getD .connectionClosed))]
      else []
    match pyDictDel net.connections proto with
    | .error e => .error e
    | .ok conns => .ok (evs, { net with connections := conns })

/-! ### Heartbeat liveness (server/server_networking.py) -/

/-- The attribute read self.protocol.is_connected in Connection.is_alive.
ChatProtocol (shared/chat_protocol.py) defines is_closed but no attribute or
property named is_connected, and neither does asyncio.Protocol, so this read
raises AttributeError on every call. -/
def protocolIsConnected : Except PyErr Bool :=
  .error .attributeError

/-- Connection.is_alive: UserNotLoggedIn before login; then the
is_connected read above; then compare now minus the last heartbeat
(connection time when none) against 15 seconds. -/
def isAlive (now : Int) (conn : Connection) : Except PyErr Bool :=
  if conn.username = none then .error .userNotLoggedIn
  else
    match protocolIsConnected with
    | .error e => .error e
    | .ok isConn =>
      if !isConn then .error .connectionClosedError
      else
        let delta : Int :=
          match conn.lastHeartbeat with
          | some hb => now - hb
          | none => now - conn.connectionTime
        if delta ≤ 15 then .ok true else .ok false

/-- One pass over the connections dict in monitor_heartbeats: for every
connection with a truthy username that is_alive reports dead, emit user_left
with a ConnectionClosedError, clear the username, close the connection.  An
exception from is_alive propagates out of the loop (only CancelledError is
caught in monitor_heartbeats, so any other exception kills the monitor
task). -/
def monitorTickGo (now : Int) :
    List (Nat × Connection) → Except PyErr (List SrvEvent × List (Nat × Connection) × List Nat)
  | [] => .ok ([], [], [])
  | (pid, conn) :: rest =>
    if usernameTruthy conn.username then
      match isAlive now conn with
      | .error e => .error e
      | .ok alive =>
        if !alive then
          match monitorTickGo now rest with
          | .error e => .error e
          | .ok (evs, conns, closed) =>
            .ok (.userLeft pid (orEmpty conn.username) (some .connectionClosed) :: evs,
              (pid, { conn with username := none }) :: conns, pid :: closed)
        else
          match monitorTickGo now rest with
          | .error e => .error e
          | .ok (evs, conns, closed) => .ok (evs, (pid, conn) :: conns, closed)
    else
      match monitorTickGo now rest with
      | .error e => .error e
      | .ok (evs, conns, closed) => .ok (evs, (pid, conn) :: conns, closed)

/-- One heartbeat-monitor tick over the whole server state. -/
def monitorTick (net : ServerNetworking) (now : Int) :
    Except PyErr (List SrvEvent × ServerNetworking × List Nat) :=
  match monitorTickGo now net.connections with
  | .error e => .error e
  | .ok (evs, conns, closed) => .ok (evs, { net with connections := conns }, closed)

/-! ### Server application (server/main.py) -/

/-- ServerApplication state: connected_users, username to protocol id. -/
structure ServerApplication where
  connected_users : List (PyStr × Nat)
deriving DecidableEq, Repr

/-- One send_packet performed while broadcasting or unicasting: the
recipient's protocol id and the MessagePacket written to it. -/
structure Delivery where
  recipient : Nat
  packet : Packet
deriving DecidableEq, Repr

/-- ServerApplication.broadcast_message: send MessagePacket(sender, message)
to every connected user, skipping the sender when one is given. -/
def broadcastMessage (app : ServerApplication) (sender : Option PyStr) (message : PyStr) :
    List Delivery :=
  (app.connected_users.filter (fun kv =>
    match sender with
    | some s => decide (¬ s = kv.1)
    | none => true)).map (fun kv => ⟨kv.2, .message sender message⟩)

/-- ServerApplication.on_user_left: del connected_users[username] (KeyError
when the username is not in the roster), then broadcast the system message
for a normal leave or a lost connection. -/
def onUserLeft (app : ServerApplication) (username : PyStr) (err : Option SrvErr) :
    Except PyErr (ServerApplication × List Delivery) :=
  match pyDictDel app.connected_users username with
  | .error e => .error e
  | .ok cu =>
    let app' : ServerApplication := ⟨cu⟩
    if err = none then
      .ok (app', broadcastMessage app' none
        ("User ".toList ++ username ++ " has left!".toList))
    else
      .ok (app', broadcastMessage app' none
        ("User ".toList ++ username ++ " has lost the connection to the server!".toList))

/-! ### MESSAGE dispatch (server/packet_handlers.py and server/main.py) -/

/-- A positional argument passed by EventEmitter.emit to a listener. -/
inductive EmitArg where
  | protoArg (proto : Nat)
  | strArg (s : PyStr)
deriving DecidableEq, Repr

/-- MessagePacketHandler.handle_packet: look up the sender's username from
the connection; if the message is invalid or the connection has no username,
reply INVALID_MESSAGE; otherwise reply OK and emit
emit('message_received', sender_username, packet.message) — the second
component lists the positional argument lists of the emissions performed. -/
def handleMessagePacket (net : ServerNetworking) (proto : Nat) (messageText : PyStr) :
    Except PyErr (List Packet × List (List EmitArg)) :=
  match pyDictGet net.connections proto with
  | .error e => .error e
  | .ok conn =>
    if !validMessage messageText || decide (conn.username = none) then
      .ok ([.response .invalidMessage], [])
    else
      .ok ([.response .ok], [[.strArg (orEmpty conn.username), .strArg messageText]])

/-- The positional parameters of the bound method
ServerApplication.on_message_received, (_protocol, sender, message) —
three of them (self excluded). -/
def onMessageReceivedParams : Nat := 3

/-- Python positional-argument binding for a call with no defaults and no
varargs: the listener call EventEmitter.emit performs raises TypeError
unless the argument count equals the parameter count. -/
def bindPositional (params : Nat) (args : List EmitArg) : Except PyErr (List EmitArg) :=
  if args.length = params then .ok args else .error .typeError

/-! ### Outstanding-response queue (shared/chat_protocol.py)

The per-connection state that send_packet_and_wait, data_received and
connection_lost touch, with futures named by consecutive ids in creation
order.  The cooperative event loop is modelled by a sequence of atomic
operations. -/

/-- Errors a pending response future can be failed with. -/
inductive C6Err where
  | codecError
  | connectionClosedError
  | transportError
deriving DecidableEq, Repr

/-- How a pending future was completed. -/
inductive C6Outcome where
  | resolved (result : Option ResponseCode)
  | failed (e : C6Err)
deriving DecidableEq, Repr

/-- Events ChatProtocol emits. -/
inductive C6Event where
  | packetReceived (p : Packet)
  | connectionLostEvent (e : Option C6Err)
deriving DecidableEq, Repr

/-- The ChatProtocol connection state relevant to the response queue:
the closed flag, whether a codec error is stored in self._error, the deque
of pending future ids (oldest first), the id for the next future, the log of
completed futures in completion order, and the emitted events. -/
structure ProtocolState where
  closed : Bool
  errorStored : Bool
  queue : List Nat
  nextId : Nat
  completed : List (Nat × C6Outcome)
  events : List C6Event
deriving DecidableEq, Repr

/-- The state after connection_made. -/
def initialProtocolState : ProtocolState :=
  ⟨false, false, [], 0, [], []⟩

/-- ChatProtocol._resolve_next_response: pop the oldest pending future and
set an exception or a result on it; when the queue is empty the call is
ignored and no error is raised.  (Futures are never cancelled in the
modelled operations, so the cancelled() guard always passes.) -/
def resolveNextResponse (st : ProtocolState) (err : Option C6Err)
    (result : Option ResponseCode) : ProtocolState :=
  match st.queue with
  | [] => st
  | f :: rest =>
    { st with
      queue := rest,
      completed := st.completed ++
        [(f, (match err with
              | some e => C6Outcome.failed e
              | none => C6Outcome.resolved result))] }

/-- send_packet_and_wait up to its suspension: raises ConnectionClosedError
without enqueuing when the connection is closed; otherwise appends a fresh
future to the queue (and then writes the packet).  The returned future's
completion is what the caller later awaits. -/
def sendPacketAndWaitEnqueue (st : ProtocolState) : Except PyErr ProtocolState :=
  if st.closed then .error .connectionClosedError
  else
    .ok { st with
          queue := st.queue ++ [st.nextId],
          nextId := st.nextId + 1 }

/-- The body of the data_received drain loop for one decoded packet: a
ResponsePacket first resolves the oldest pending future with itself, then
every packet (RESPONSEs included) is emitted as packet_received. -/
def deliverPacket (st : ProtocolState) (p : Packet) : ProtocolState :=
  let st1 :=
    match p with
    | .response code => resolveNextResponse st none (some code)
    | _ => st
  { st1 with events := st1.events ++ [.packetReceived p] }

/-- data_received catching a BaseProtocolError: store it in self._error and
close the transport (connection_lost follows from the event loop). -/
def codecErrorClose (st : ProtocolState) : ProtocolState :=
  { st with errorStored := true }

/-- ChatProtocol.connection_lost: set closed; with a stored codec error,
emit connection_lost with it and fail every pending future with it (the
while loop pops the deque in order); otherwise emit connection_lost with the
transport error and fail every pending future with it, or with
ConnectionClosedError when the transport reported none. -/
def connectionLost (st : ProtocolState) (err : Option C6Err) : ProtocolState :=
  if st.errorStored then
    { st with
      closed := true,
      queue := [],
      events := st.events ++ [.connectionLostEvent (some .codecError)],
      completed := st.completed ++ st.queue.map (fun f => (f, C6Outcome.failed .codecError)) }
  else
    { st with
      closed := true,
      queue := [],
      events := st.events ++ [.connectionLostEvent err],
      completed := st.completed ++
        st.queue.map (fun f => (f, C6Outcome.failed (err.getD .connectionClosedError))) }

/-- The atomic operations of the cooperative event loop that touch the
response queue. -/
inductive ProtocolOp where
  | sendAndWait
  | recvPacket (p : Packet)
  | codecError
  | connLost (err : Option C6Err)
deriving DecidableEq, Repr

/-- One scheduler step.  A send_packet_and_wait on a closed connection
raises before touching the queue, leaving the state unchanged. -/
def protocolStep (st : ProtocolState) : ProtocolOp → ProtocolState
  | .sendAndWait =>
    match sendPacketAndWaitEnqueue st with
    | .ok st' => st'
    | .error _ => st
  | .recvPacket p => deliverPacket st p
  | .codecError => codecErrorClose st
  | .connLost err => connectionLost st err

/-- Run a sequence of operations from a fresh connection. -/
def protocolRun (ops : List ProtocolOp) : ProtocolState :=
  ops.foldl protocolStep initialProtocolState

/-- The queue bookkeeping invariant: the completed futures are exactly ids
0..m-1 in order, and the queue holds ids m..nextId-1 in order. -/
def C6Inv (st : ProtocolState) : Prop :=
  st.completed.map Prod.fst = List.range st.completed.length ∧
  st.queue = List.range' st.completed.length (st.nextId - st.completed.length) ∧
  st.completed.length ≤ st.nextId

theorem utf8Decode_encodeChar (c : Char) (rest : List Nat) :
    utf8Decode (utf8EncodeChar c.toNat ++ rest) =
      (utf8Decode rest).map (fun cs => c :: cs) := by
  have hv : c.toNat < 0xD800 ∨ (0xDFFF < c.toNat ∧ c.toNat < 0x110000) := c.valid
  set n := c.toNat with hn
  by_cases h1 : n < 0x80
  · have henc : utf8EncodeChar n = [n] := by
      unfold utf8EncodeChar
      rw [if_pos h1]
    have hstep : utf8DecodeStep n rest = some (n, 0) := by
      unfold utf8DecodeStep
      rw [if_pos h1]
    rw [henc, List.cons_append, List.nil_append, utf8Decode.eq_def]
    simp only [hstep, List.drop_zero]
    rw [hn, Char.ofNat_toNat]
  · by_cases h2 : n < 0x800
    · have henc : utf8EncodeChar n = [0xC0 + n / 64, 0x80 + n % 64] := by
        unfold utf8EncodeChar
        rw [if_neg h1, if_pos h2]
      have hstep : utf8DecodeStep (0xC0 + n / 64) ((0x80 + n % 64) :: rest) = some (n, 1) := by
        unfold utf8DecodeStep
        simp only [List.getD_cons_zero]
        rw [if_neg (by omega), if_pos (by omega), if_pos (by omega)]
        have harg : (0xC0 + n / 64 - 0xC0) * 64 + (0x80 + n % 64 - 0x80) = n := by omega
        rw [harg]
      rw [henc, List.cons_append, List.cons_append, List.nil_append, utf8Decode.eq_def]
      simp only [hstep, List.drop_succ_cons, List.drop_zero]
      rw [hn, Char.ofNat_toNat]
    · by_cases h3 : n < 0x10000
      · have henc : utf8EncodeChar n = [0xE0 + n / 4096, 0x80 + n / 64 % 64, 0x80 + n % 64] := by
          unfold utf8EncodeChar
          rw [if_neg h1, if_neg h2, if_pos h3]
        have hstep : utf8DecodeStep (0xE0 + n / 4096)
            ((0x80 + n / 64 % 64) :: (0x80 + n % 64) :: rest) = some (n, 2) := by
          unfold utf8DecodeStep
          simp only [List.getD_cons_zero, List.getD_cons_succ]
          rw [if_neg (by omega), if_neg (by omega), if_pos (by omega), if_pos (by omega)]
          have harg : (0xE0 + n / 4096 - 0xE0) * 4096 + (0x80 + n / 64 % 64 - 0x80) * 64 +
              (0x80 + n % 64 - 0x80) = n := by omega
          rw [harg]
        rw [henc, List.cons_append, List.cons_append, List.cons_append, List.nil_append,
          utf8Decode.eq_def]
        simp only [hstep, List.drop_succ_cons, List.drop_zero]
        rw [hn, Char.ofNat_toNat]
      · have henc : utf8EncodeChar n =
            [0xF0 + n / 262144, 0x80 + n / 4096 % 64, 0x80 + n / 64 % 64, 0x80 + n % 64] := by
          unfold utf8EncodeChar
          rw [if_neg h1, if_neg h2, if_neg h3]
        have hstep : utf8DecodeStep (0xF0 + n / 262144)
            ((0x80 + n / 4096 % 64) :: (0x80 + n / 64 % 64) :: (0x80 + n % 64) :: rest) =
              some (n, 3) := by
          unfold utf8DecodeStep
          simp only [List.getD_cons_zero, List.getD_cons_succ]
          rw [if_neg (by omega), if_neg (by omega), if_neg (by omega), if_pos (by omega),
            if_pos (by omega)]
          have harg : (0xF0 + n / 262144 - 0xF0) * 262144 + (0x80 + n / 4096 % 64 - 0x80) * 4096 +
              (0x80 + n / 64 % 64 - 0x80) * 64 + (0x80 + n % 64 - 0x80) = n := by omega
          rw [harg]
        rw [henc, List.cons_append, List.cons_append, List.cons_append, List.cons_append,
          List.nil_append, utf8Decode.eq_def]
        simp only [hstep, List.drop_succ_cons, List.drop_zero]
        rw [hn, Char.ofNat_toNat]

/-- Round trip: decoding an encoded string yields the string back (with any
trailing bytes decoded independently). -/
theorem utf8Decode_append (s : List Char) (rest : List Nat) :
    utf8Decode (utf8Encode s ++ rest) = (utf8Decode rest).map (fun cs => s ++ cs) := by
  induction s with
  | nil =>
    rw [show utf8Encode [] = [] from rfl, List.nil_append]
    cases utf8Decode rest <;> simp
  | cons c cs ih =>
    rw [show utf8Encode (c :: cs) = utf8EncodeChar c.toNat ++ utf8Encode cs from rfl,
      List.append_assoc, utf8Decode_encodeChar c (utf8Encode cs ++ rest), ih]
    cases utf8Decode rest <;> simp

theorem utf8Decode_nil : utf8Decode [] = some [] := by
  rw [utf8Decode.eq_def]

theorem utf8Decode_encode (s : List Char) : utf8Decode (utf8Encode s) = some s := by
  have h := utf8Decode_append s []
  rw [List.append_nil, utf8Decode_nil] at h
  simpa using h

/-! ### str.split lemmas -/

theorem pySplit_no_sep (sep : Char) (u : PyStr) (h : sep ∉ u) : pySplit sep u = [u] := by
  induction u with
  | nil => rfl
  | cons c rest ih =>
    have hc : ¬ c = sep := fun hcs => h (hcs ▸ List.mem_cons_self c rest)
    rw [pySplit, if_neg hc, ih (fun hm => h (List.mem_cons_of_mem c hm))]

theorem pySplit_sep_append (sep : Char) (u v : PyStr) (h : sep ∉ u) :
    pySplit sep (u ++ sep :: v) = u :: pySplit sep v := by
  induction u with
  | nil =>
    rw [List.nil_append, pySplit, if_pos rfl]
  | cons c rest ih =>
    have hc : ¬ c = sep := fun hcs => h (hcs ▸ List.mem_cons_self c rest)
    rw [List.cons_append, pySplit, if_neg hc, ih (fun hm => h (List.mem_cons_of_mem c hm))]

/-! ### Codec round-trip lemmas -/

theorem ofTag_tag (t : PacketType) : PacketType.ofTag t.tag = some t := by
  cases t <;> rfl

/-- For a canonical packet, the public from_payload reconstructs the packet
from the payload bytes Packet.__init__ computed for it. -/
theorem fromPayload_payload (p : Packet) (h : p.Canonical) :
    fromPayload p.packetType p.payload = .ok p := by
  obtain ⟨hlen, hf⟩ := h
  cases p with
  | heartbeat => rfl
  | logout => rfl
  | response c => cases c <;> rfl
  | login u pw =>
    obtain ⟨hu, hpw0, hpwbar⟩ := hf
    simp only [Packet.payload, Packet.packetType, PacketType.maxPayloadLength] at hlen
    have hinner : fromPayloadInner PacketType.login (Packet.payload (.login u pw)) =
        .ok (.login u pw) := by
      show loginFromPayloadInner (Packet.payload (.login u pw)) = .ok (.login u pw)
      unfold loginFromPayloadInner
      rw [show Packet.payload (.login u pw) = utf8Encode (u ++ '|' :: orEmpty pw) from rfl]
      rw [utf8Decode_encode]
      simp only
      rw [pySplit_sep_append '|' u (orEmpty pw) hu, pySplit_no_sep '|' (orEmpty pw) hpwbar]
      simp only
      have hif : (if orEmpty pw = [] then none else some (orEmpty pw)) = pw := by
        cases pw with
        | none => rfl
        | some s =>
          have hs : ¬ (s = []) := fun hs => hpw0 (by rw [hs])
          simp [orEmpty, hs]
      rw [hif]
      unfold packetInit
      rw [if_neg (by simp only [Packet.payload, Packet.packetType, PacketType.maxPayloadLength]; omega)]
    unfold fromPayload
    rw [if_neg (by simp only [Packet.payload, Packet.packetType, PacketType.maxPayloadLength]; omega)]
    simp only [Packet.packetType]
    rw [hinner]
  | message u m =>
    obtain ⟨hu0, hubar, hm⟩ := hf
    simp only [Packet.payload, Packet.packetType, PacketType.maxPayloadLength] at hlen
    have hinner : fromPayloadInner PacketType.message (Packet.payload (.message u m)) =
        .ok (.message u m) := by
      show messageFromPayloadInner (Packet.payload (.message u m)) = .ok (.message u m)
      unfold messageFromPayloadInner
      rw [show Packet.payload (.message u m) = utf8Encode (orEmpty u ++ '|' :: m) from rfl]
      rw [utf8Decode_encode]
      simp only
      rw [pySplit_sep_append '|' (orEmpty u) m hubar, pySplit_no_sep '|' m hm]
      simp only
      have hif : (if orEmpty u = [] then none else some (orEmpty u)) = u := by
        cases u with
        | none => rfl
        | some s =>
          have hs : ¬ (s = []) := fun hs => hu0 (by rw [hs])
          simp [orEmpty, hs]
      rw [hif]
      unfold packetInit
      rw [if_neg (by simp only [Packet.payload, Packet.packetType, PacketType.maxPayloadLength]; omega)]
    unfold fromPayload
    rw [if_neg (by simp only [Packet.payload, Packet.packetType, PacketType.maxPayloadLength]; omega)]
    simp only [Packet.packetType]
    rw [hinner]

/-! ### Frame-reader lemmas -/

theorem wire_cons (p : Packet) :
    p.wire = 1 :: p.packetType.tag :: (p.payload.length / 256) ::
      (p.payload.length % 256) :: p.payload := by
  simp [Packet.wire]

theorem wire_length (p : Packet) : p.wire.length = 4 + p.payload.length := by
  simp [Packet.wire]
  omega

theorem deserializeHeader_wire (p : Packet) (rest : List Nat) :
    deserializeHeader ((p.wire ++ rest).take 4) = .ok (p.packetType, p.payload.length) := by
  rw [wire_cons]
  simp only [List.cons_append, List.take_succ_cons, List.take_zero]
  unfold deserializeHeader
  simp only
  rw [ofTag_tag]
  simp only
  have harith : p.payload.length / 256 * 256 + p.payload.length % 256 = p.payload.length := by
    omega
  rw [harith]

/-- packet_factory on a buffer starting with the full wire form of a canonical
packet returns that packet and its total size. -/
theorem packetFactory_wire (p : Packet) (h : p.Canonical) (rest : List Nat) :
    packetFactory (p.wire ++ rest) = .ok (some (p, 4 + p.payload.length)) := by
  unfold packetFactory
  rw [if_pos (by rw [List.length_append, wire_length]; omega)]
  rw [deserializeHeader_wire p rest]
  simp only
  have hdrop : (p.wire ++ rest).drop 4 = p.payload ++ rest := by
    rw [wire_cons]
    simp only [List.cons_append, List.drop_succ_cons, List.drop_zero]
  have htake : (p.payload ++ rest).take p.payload.length = p.payload :=
    List.take_left' rfl
  rw [hdrop, htake, if_pos (le_refl _), fromPayload_payload p h]

/-- packet_factory on a proper front part of a canonical packet's wire form
returns (None, None): either fewer than 4 bytes are present, or the header
parses but the payload slice is still short. -/
theorem packetFactory_short (q : Packet) (hq : q.Canonical) (k : Nat) (hk : k < q.wire.length) :
    packetFactory (q.wire.take k) = .ok none := by
  have hwl : q.wire.length = 4 + q.payload.length := wire_length q
  by_cases h4 : 4 ≤ k
  · unfold packetFactory
    rw [if_pos (by simp [List.length_take]; omega)]
    have ht : (q.wire.take k).take 4 = (q.wire ++ []).take 4 := by
      rw [List.take_take, List.append_nil]
      congr 1
      omega
    rw [ht, deserializeHeader_wire q []]
    simp only
    have hslice : (((q.wire.take k).drop 4).take q.payload.length).length < q.payload.length := by
      simp only [List.length_take, List.length_drop]
      omega
    rw [if_neg (by omega)]
  · unfold packetFactory
    rw [if_neg (by simp [List.length_take]; omega)]

/-- A complete packet consumes at least the 4 header bytes and no more than
the buffered bytes. -/
theorem packetFactory_size (buffer : List Nat) (p : Packet) (n : Nat)
    (h : packetFactory buffer = .ok (some (p, n))) : 4 ≤ n ∧ n ≤ buffer.length := by
  by_cases hb : 4 ≤ buffer.length
  · rw [packetFactory, if_pos hb] at h
    rcases hd : deserializeHeader (buffer.take 4) with e | ⟨pt, len⟩ <;> rw [hd] at h
    · exact absurd h (by simp)
    · simp only at h
      by_cases hl : len ≤ ((buffer.drop 4).take len).length
      · rw [if_pos hl] at h
        rcases hf : fromPayload pt ((buffer.drop 4).take len) with e | q <;> rw [hf] at h
        · exact absurd h (by simp)
        · have h' := h.symm
          simp only [Except.ok.injEq, Option.some.injEq, Prod.mk.injEq] at h'
          have hlen : ((buffer.drop 4).take len).length = min len (buffer.length - 4) := by
            simp [List.length_take, List.length_drop]
          omega
      · rw [if_neg hl] at h
        exact absurd h (by simp)
  · rw [packetFactory, if_neg hb] at h
    exact absurd h (by simp)

/-- packet_factory only reads the first complete packet, so appending bytes
does not change a successful parse. -/
theorem packetFactory_append (buffer ext : List Nat) (r : Packet × Nat)
    (h : packetFactory buffer = .ok (some r)) :
    packetFactory (buffer ++ ext) = .ok (some r) := by
  by_cases hb : 4 ≤ buffer.length
  · rw [packetFactory, if_pos hb] at h
    rw [packetFactory, if_pos (by rw [List.length_append]; omega),
      List.take_append_of_le_length hb]
    rcases hd : deserializeHeader (buffer.take 4) with e | ⟨pt, len⟩ <;> rw [hd] at h
    · exact absurd h (by simp)
    · simp only at h ⊢
      by_cases hl : len ≤ ((buffer.drop 4).take len).length
      · have hdlen : len ≤ (buffer.drop 4).length := by
          simp only [List.length_take] at hl
          omega
        rw [if_pos hl] at h
        rw [List.drop_append_of_le_length hb, List.take_append_of_le_length hdlen, if_pos hl]
        exact h
      · rw [if_neg hl] at h
        exact absurd h (by simp)
  · rw [packetFactory, if_neg hb] at h
    exact absurd h (by simp)

/-- Appending bytes also preserves a packet_factory error. -/
theorem packetFactory_append_err (buffer ext : List Nat) (e : ProtocolError)
    (h : packetFactory buffer = .error e) :
    packetFactory (buffer ++ ext) = .error e := by
  by_cases hb : 4 ≤ buffer.length
  · rw [packetFactory, if_pos hb] at h
    rw [packetFactory, if_pos (by rw [List.length_append]; omega),
      List.take_append_of_le_length hb]
    rcases hd : deserializeHeader (buffer.take 4) with e' | ⟨pt, len⟩ <;> rw [hd] at h
    · simp only at h ⊢
      exact h
    · simp only at h ⊢
      by_cases hl : len ≤ ((buffer.drop 4).take len).length
      · have hdlen : len ≤ (buffer.drop 4).length := by
          simp only [List.length_take] at hl
          omega
        rw [if_pos hl] at h
        rw [List.drop_append_of_le_length hb, List.take_append_of_le_length hdlen, if_pos hl]
        exact h
      · rw [if_neg hl] at h
        exact absurd h (by simp)
  · rw [packetFactory, if_neg hb] at h
    exact absurd h (by simp)

theorem drainBuffer_stop (buffer : List Nat) (h : packetFactory buffer = .ok none) :
    drainBuffer buffer = .ok ([], buffer) := by
  rw [drainBuffer.eq_def]
  split
  · simp_all
  · rfl
  · simp_all

theorem drainBuffer_err (buffer : List Nat) (e : ProtocolError)
    (h : packetFactory buffer = .error e) : drainBuffer buffer = .error e := by
  rw [drainBuffer.eq_def]
  split
  · simp_all
  · simp_all
  · simp_all

theorem drainBuffer_step (buffer : List Nat) (p : Packet) (n : Nat)
    (h : packetFactory buffer = .ok (some (p, n))) :
    drainBuffer buffer = (drainBuffer (buffer.drop n)).map (fun pr => (p :: pr.1, pr.2)) := by
  rw [drainBuffer.eq_def]
  split
  · simp_all
  · simp_all
  · rename_i p' n' h'
    rw [h] at h'
    cases h'
    cases hd : drainBuffer (buffer.drop n) <;> simp [Except.map]

/-- The residual buffer left by the drain loop never holds a complete packet. -/
theorem drainBuffer_residual :
    ∀ (buffer : List Nat) (ps : List Packet) (rest : List Nat),
      drainBuffer buffer = .ok (ps, rest) → packetFactory rest = .ok none := by
  suffices H : ∀ (N : Nat) (buffer : List Nat), buffer.length ≤ N →
      ∀ (ps : List Packet) (rest : List Nat),
        drainBuffer buffer = .ok (ps, rest) → packetFactory rest = .ok none by
    exact fun buffer => H buffer.length buffer le_rfl
  intro N
  induction N with
  | zero =>
    intro buffer hb ps rest h
    cases hf : packetFactory buffer with
    | error e =>
      rw [drainBuffer_err buffer e hf] at h
      exact absurd h (by simp)
    | ok o =>
      cases o with
      | none =>
        rw [drainBuffer_stop buffer hf] at h
        cases h
        exact hf
      | some pn =>
        obtain ⟨hn4, hnle⟩ := packetFactory_size buffer pn.1 pn.2 (by rw [hf])
        omega
  | succ N ih =>
    intro buffer hb ps rest h
    cases hf : packetFactory buffer with
    | error e =>
      rw [drainBuffer_err buffer e hf] at h
      exact absurd h (by simp)
    | ok o =>
      cases o with
      | none =>
        rw [drainBuffer_stop buffer hf] at h
        cases h
        exact hf
      | some pn =>
        obtain ⟨p, n⟩ := pn
        obtain ⟨hn4, hnle⟩ := packetFactory_size buffer p n hf
        rw [drainBuffer_step buffer p n hf] at h
        cases hd : drainBuffer (buffer.drop n) with
        | error e =>
          rw [hd] at h
          exact absurd h (by simp [Except.map])
        | ok pr =>
          rw [hd] at h
          simp only [Except.map, Except.ok.injEq, Prod.mk.injEq] at h
          exact h.2 ▸ ih (buffer.drop n) (by rw [List.length_drop]; omega) pr.1 pr.2
            (by rw [hd])

/-- Draining buffer ++ ext first drains buffer, then continues from its
residual with the extension appended: the emitted packets depend only on the
concatenated byte stream. -/
theorem drainBuffer_append :
    ∀ (buffer ext : List Nat) (ps : List Packet) (rest : List Nat),
      drainBuffer buffer = .ok (ps, rest) →
      drainBuffer (buffer ++ ext) =
        (drainBuffer (rest ++ ext)).map (fun pr => (ps ++ pr.1, pr.2)) := by
  suffices H : ∀ (N : Nat) (buffer : List Nat), buffer.length ≤ N →
      ∀ (ext : List Nat) (ps : List Packet) (rest : List Nat),
        drainBuffer buffer = .ok (ps, rest) →
        drainBuffer (buffer ++ ext) =
          (drainBuffer (rest ++ ext)).map (fun pr => (ps ++ pr.1, pr.2)) by
    exact fun buffer => H buffer.length buffer le_rfl
  intro N
  induction N with
  | zero =>
    intro buffer hb ext ps rest h
    cases hf : packetFactory buffer with
    | error e =>
      rw [drainBuffer_err buffer e hf] at h
      exact absurd h (by simp)
    | ok o =>
      cases o with
      | none =>
        rw [drainBuffer_stop buffer hf] at h
        cases h
        cases hd : drainBuffer (buffer ++ ext) <;> simp [Except.map]
      | some pn =>
        obtain ⟨hn4, hnle⟩ := packetFactory_size buffer pn.1 pn.2 (by rw [hf])
        omega
  | succ N ih =>
    intro buffer hb ext ps rest h
    cases hf : packetFactory buffer with
    | error e =>
      rw [drainBuffer_err buffer e hf] at h
      exact absurd h (by simp)
    | ok o =>
      cases o with
      | none =>
        rw [drainBuffer_stop buffer hf] at h
        cases h
        cases hd : drainBuffer (buffer ++ ext) <;> simp [Except.map]
      | some pn =>
        obtain ⟨p, n⟩ := pn
        obtain ⟨hn4, hnle⟩ := packetFactory_size buffer p n hf
        rw [drainBuffer_step buffer p n hf] at h
        cases hd : drainBuffer (buffer.drop n) with
        | error e =>
          rw [hd] at h
          exact absurd h (by simp [Except.map])
        | ok pr =>
          rw [hd] at h
          simp only [Except.map, Except.ok.injEq, Prod.mk.injEq] at h
          obtain ⟨hps, hrest⟩ := h
          subst hps
          subst hrest
          have hfe : packetFactory (buffer ++ ext) = .ok (some (p, n)) :=
            packetFactory_append buffer ext (p, n) hf
          rw [drainBuffer_step (buffer ++ ext) p n hfe,
            List.drop_append_of_le_length hnle,
            ih (buffer.drop n) (by rw [List.length_drop]; omega) ext pr.1 pr.2 (by rw [hd])]
          cases drainBuffer (pr.2 ++ ext) <;> simp [Except.map]

/-- Draining never recovers from a codec error: appending bytes to an
erroring buffer still errors. -/
theorem drainBuffer_append_err :
    ∀ (buffer ext : List Nat) (e : ProtocolError),
      drainBuffer buffer = .error e → drainBuffer (buffer ++ ext) = .error e := by
  suffices H : ∀ (N : Nat) (buffer : List Nat), buffer.length ≤ N →
      ∀ (ext : List Nat) (e : ProtocolError),
        drainBuffer buffer = .error e → drainBuffer (buffer ++ ext) = .error e by
    exact fun buffer => H buffer.length buffer le_rfl
  intro N
  induction N with
  | zero =>
    intro buffer hb ext e h
    cases hf : packetFactory buffer with
    | error e' =>
      rw [drainBuffer_err buffer e' hf] at h
      simp only [Except.error.injEq] at h
      exact h ▸ drainBuffer_err _ e' (packetFactory_append_err buffer ext e' hf)
    | ok o =>
      cases o with
      | none =>
        rw [drainBuffer_stop buffer hf] at h
        exact absurd h (by simp)
      | some pn =>
        obtain ⟨hn4, hnle⟩ := packetFactory_size buffer pn.1 pn.2 (by rw [hf])
        omega
  | succ N ih =>
    intro buffer hb ext e h
    cases hf : packetFactory buffer with
    | error e' =>
      rw [drainBuffer_err buffer e' hf] at h
      simp only [Except.error.injEq] at h
      exact h ▸ drainBuffer_err _ e' (packetFactory_append_err buffer ext e' hf)
    | ok o =>
      cases o with
      | none =>
        rw [drainBuffer_stop buffer hf] at h
        exact absurd h (by simp)
      | some pn =>
        obtain ⟨p, n⟩ := pn
        obtain ⟨hn4, hnle⟩ := packetFactory_size buffer p n hf
        rw [drainBuffer_step buffer p n hf] at h
        cases hd : drainBuffer (buffer.drop n) with
        | error e' =>
          rw [hd] at h
          simp only [Except.map, Except.error.injEq] at h
          have hfe : packetFactory (buffer ++ ext) = .ok (some (p, n)) :=
            packetFactory_append buffer ext (p, n) hf
          rw [drainBuffer_step (buffer ++ ext) p n hfe,
            List.drop_append_of_le_length hnle,
            ih (buffer.drop n) (by rw [List.length_drop]; omega) ext e' (by rw [hd])]
          simp [Except.map, h]
        | ok pr =>
          rw [hd] at h
          exact absurd h (by simp [Except.map])

/-- Draining a buffer made of the wire forms of canonical packets followed by
an incomplete tail emits exactly those packets and leaves the tail. -/
theorem drainBuffer_stream :
    ∀ (ps : List Packet), (∀ p ∈ ps, p.Canonical) →
      ∀ (tail : List Nat), packetFactory tail = .ok none →
        drainBuffer ((ps.map Packet.wire).flatten ++ tail) = .ok (ps, tail) := by
  intro ps
  induction ps with
  | nil =>
    intro _ tail ht
    simp only [List.map_nil, List.flatten_nil, List.nil_append]
    exact drainBuffer_stop tail ht
  | cons p ps ih =>
    intro hcan tail ht
    have hp : p.Canonical := hcan p (List.mem_cons_self p ps)
    have hps : ∀ q ∈ ps, q.Canonical := fun q hq => hcan q (List.mem_cons_of_mem p hq)
    simp only [List.map_cons, List.flatten_cons, List.append_assoc]
    have hf := packetFactory_wire p hp ((ps.map Packet.wire).flatten ++ tail)
    rw [drainBuffer_step _ p (4 + p.payload.length) hf]
    have hdrop : (p.wire ++ ((ps.map Packet.wire).flatten ++ tail)).drop (4 + p.payload.length) =
        (ps.map Packet.wire).flatten ++ tail := by
      rw [show 4 + p.payload.length = p.wire.length from (wire_length p).symm]
      exact List.drop_left _ _
    rw [hdrop, ih hps tail ht]
    simp [Except.map]

/-- Feeding any chunking whose concatenation extends a no-complete-packet
residual buffer produces the same packets as draining the concatenation. -/
theorem feedChunks_drain :
    ∀ (chunks : List (List Nat)) (acc : List Packet) (buffer : List Nat)
      (ps : List Packet) (rest : List Nat),
      packetFactory buffer = .ok none →
      drainBuffer (buffer ++ chunks.flatten) = .ok (ps, rest) →
      feedChunks (acc, buffer) chunks = .ok (acc ++ ps, rest) := by
  intro chunks
  induction chunks with
  | nil =>
    intro acc buffer ps rest hres h
    rw [List.flatten_nil, List.append_nil, drainBuffer_stop buffer hres] at h
    cases h
    simp [feedChunks]
  | cons c cs ih =>
    intro acc buffer ps rest hres h
    rw [List.flatten_cons, show buffer ++ (c ++ cs.flatten) = (buffer ++ c) ++ cs.flatten from
      by rw [List.append_assoc]] at h
    cases hd : drainBuffer (buffer ++ c) with
    | error e =>
      rw [drainBuffer_append_err (buffer ++ c) cs.flatten e hd] at h
      exact absurd h (by simp)
    | ok pr =>
      obtain ⟨ps1, r1⟩ := pr
      rw [drainBuffer_append (buffer ++ c) cs.flatten ps1 r1 hd] at h
      cases hd2 : drainBuffer (r1 ++ cs.flatten) with
      | error e =>
        rw [hd2] at h
        exact absurd h (by simp [Except.map])
      | ok pr2 =>
        rw [hd2] at h
        simp only [Except.map, Except.ok.injEq, Prod.mk.injEq] at h
        obtain ⟨hps, hrest⟩ := h
        have hres1 : packetFactory r1 = .ok none :=
          drainBuffer_residual (buffer ++ c) ps1 r1 hd
        rw [feedChunks]
        simp only [hd]
        rw [ih (acc ++ ps1) r1 pr2.1 pr2.2 hres1 (by rw [hd2]), ← hps, ← hrest]
        simp

/-! ### Claim C1: codec round-trip -/

/-- C1 counterexample: MESSAGE(username 'a', text 'b\x7cc') is a constructible
packet whose 5-byte payload is within the 4096-byte MESSAGE bound and which
serializes successfully, yet from_payload on that very payload fails (the
\x7c inside the text makes split produce three fields), so
decode(encode(p)) = p does not hold for every in-bounds packet. -/
theorem c1_roundtrip_counterexample :
    Packet.serialize (.message (some ['a']) ['b', '|', 'c']) =
      .ok (Packet.wire (.message (some ['a']) ['b', '|', 'c'])) ∧
    fromPayload PacketType.message (Packet.payload (.message (some ['a']) ['b', '|', 'c'])) =
      .error .baseProtocol := by
  constructor
  · rfl
  · have hpl : Packet.payload (.message (some ['a']) ['b', '|', 'c']) =
        [97, 124, 98, 124, 99] := by decide
    rw [hpl]
    simp [fromPayload, fromPayloadInner, messageFromPayloadInner, utf8Decode, utf8DecodeStep,
      pySplit, PacketType.maxPayloadLength]

/-- C1 (amended): for every canonical packet — every string field free of the
\x7c separator, optional fields not the empty string, payload within
MAX_PAYLOAD_LENGTH — encoding succeeds and from_payload on the encoded
payload reconstructs an equal packet; and every packet whose payload exceeds
its type's MAX_PAYLOAD_LENGTH fails to encode with InvalidPayloadError. -/
theorem c1_roundtrip :
    (∀ p : Packet, p.Canonical →
      Packet.serialize p = .ok p.wire ∧ fromPayload p.packetType p.payload = .ok p) ∧
    (∀ p : Packet, p.packetType.maxPayloadLength < p.payload.length →
      Packet.serialize p = .error .invalidPayload) := by
  constructor
  · intro p h
    refine ⟨?_, fromPayload_payload p h⟩
    unfold Packet.serialize packetInit
    rw [if_neg (Nat.not_lt.mpr h.1)]
    rfl
  · intro p h
    unfold Packet.serialize packetInit
    rw [if_pos h]
    rfl

/-- C1 witness: the round-trip theorem applied to the concrete canonical
packet LOGIN('bob', None), and the overflow half applied to a LOGIN packet
with a 300-character username. -/
theorem c1_roundtrip_witness :
    ((Packet.login ['b', 'o', 'b'] none).Canonical ∧
      fromPayload PacketType.login (Packet.payload (.login ['b', 'o', 'b'] none)) =
        .ok (.login ['b', 'o', 'b'] none)) ∧
    (PacketType.login.maxPayloadLength <
        (Packet.login (List.replicate 300 'x') none).payload.length ∧
      Packet.serialize (.login (List.replicate 300 'x') none) = .error .invalidPayload) := by
  have hcan : (Packet.login ['b', 'o', 'b'] none).Canonical := by decide
  have hlen : PacketType.login.maxPayloadLength <
      (Packet.login (List.replicate 300 'x') none).payload.length := by decide
  exact ⟨⟨hcan, (c1_roundtrip.1 _ hcan).2⟩, ⟨hlen, c1_roundtrip.2 _ hlen⟩⟩

/-! ### Claim C3: incremental framing -/

/-- C3: for any concatenation of the wire encodings of canonical packets
p1..pn followed by a proper front part of a further canonical packet's
encoding, feeding the stream to the data_received drain loop in any chunking
emits exactly p1..pn in order and leaves the tail buffered, no bytes
discarded: the result is the same for every way of splitting the stream. -/
theorem c3_framing (ps : List Packet) (hps : ∀ p ∈ ps, p.Canonical)
    (q : Packet) (hq : q.Canonical) (k : Nat) (hk : k < q.wire.length)
    (chunks : List (List Nat))
    (hchunks : chunks.flatten = (ps.map Packet.wire).flatten ++ q.wire.take k) :
    feedChunks ([], []) chunks = .ok (ps, q.wire.take k) := by
  have htail : packetFactory (q.wire.take k) = .ok none := packetFactory_short q hq k hk
  have hdrain := drainBuffer_stream ps hps (q.wire.take k) htail
  have h := feedChunks_drain chunks [] [] ps (q.wire.take k) (by rfl)
    (by rw [List.nil_append, hchunks]; exact hdrain)
  simpa using h

/-- C3 witness: the framing theorem applied to the stream
HEARTBEAT, LOGOUT followed by 3 of the 5 bytes of RESPONSE(OK), split into
chunks cutting across both packet and header boundaries. -/
theorem c3_framing_witness :
    feedChunks ([], []) [[1, 1], [0, 0, 1, 5, 0, 0, 1], [4, 0]] =
      .ok ([Packet.heartbeat, Packet.logout], (Packet.response .ok).wire.take 3) :=
  c3_framing [Packet.heartbeat, Packet.logout] (by decide) (.response .ok) (by decide)
    3 (by decide) [[1, 1], [0, 0, 1, 5, 0, 0, 1], [4, 0]] (by decide)

/-! ### Claim C4: payload error discrimination -/

/-- C4 evaluation at the failing inputs: for the LOGIN payload b'alice'
(which contains no \x7c) the subclass parser _from_payload raises
InvalidPayloadError, but the public from_payload catches every exception
from it and re-raises the generic BaseProtocolError instead — and the same
happens for a RESPONSE payload holding the unknown code 7.  So from_payload
never surfaces INVALID_PAYLOAD for a reconstruction failure, contrary to the
claim and to from_payload's own docstring. -/
theorem c4_from_payload_wraps :
    fromPayloadInner PacketType.login (utf8Encode ['a', 'l', 'i', 'c', 'e']) =
      .error .invalidPayload ∧
    fromPayload PacketType.login (utf8Encode ['a', 'l', 'i', 'c', 'e']) =
      .error .baseProtocol ∧
    fromPayloadInner PacketType.response [7] = .error .invalidPayload ∧
    fromPayload PacketType.response [7] = .error .baseProtocol := by
  have hpl : utf8Encode ['a', 'l', 'i', 'c', 'e'] = [97, 108, 105, 99, 101] := by decide
  refine ⟨?_, ?_, by rfl, by rfl⟩
  · rw [hpl]
    show loginFromPayloadInner [97, 108, 105, 99, 101] = .error .invalidPayload
    simp [loginFromPayloadInner, utf8Decode, utf8DecodeStep, pySplit]
  · rw [hpl]
    simp [fromPayload, fromPayloadInner, loginFromPayloadInner, utf8Decode, utf8DecodeStep,
      pySplit, PacketType.maxPayloadLength]

/-! ### Claim C10: empty RESPONSE payload -/

/-- C10: from_payload for RESPONSE accepts the empty payload: the length
check admits 0 ≤ 1 bytes, int.from_bytes(b'', 'big') is 0, and 0 is the OK
response code, so decoding yields RESPONSE(OK) rather than failing. -/
theorem c10_empty_response_payload :
    intFromBytes [] = 0 ∧
    fromPayload PacketType.response [] = .ok (.response .ok) :=
  ⟨rfl, rfl⟩

/-! ### Dict helper lemmas -/

theorem keyPresent_of_get {α β : Type} [DecidableEq α] (d : List (α × β)) (k : α) (v : β)
    (h : pyDictGet d k = .ok v) : d.any (fun kv => decide (kv.1 = k)) = true := by
  induction d with
  | nil => simp [pyDictGet] at h
  | cons kv d ih =>
    by_cases hk : kv.1 = k
    · simp [hk]
    · rw [pyDictGet, List.find?_cons_of_neg _ (by simp [hk])] at h
      simp only [List.any_cons, Bool.or_eq_true]
      exact Or.inr (ih (by rw [pyDictGet]; exact h))

theorem pyDictGet_set_self {α β : Type} [DecidableEq α] (d : List (α × β)) (k : α) (v : β)
    (hpresent : d.any (fun kv => decide (kv.1 = k)) = true) :
    pyDictGet (pyDictSet d k v) k = .ok v := by
  rw [pyDictSet, if_pos hpresent]
  induction d with
  | nil => simp at hpresent
  | cons kv d ih =>
    by_cases hk : kv.1 = k
    · simp only [List.map_cons, if_pos hk]
      rw [pyDictGet, List.find?_cons_of_pos _ (by simp)]
    · have hpresent2 : d.any (fun kv => decide (kv.1 = k)) = true := by
        simp only [List.any_cons, Bool.or_eq_true] at hpresent
        rcases hpresent with hbad | hgood
        · exact absurd (of_decide_eq_true hbad) hk
        · exact hgood
      simp only [List.map_cons, if_neg hk]
      rw [pyDictGet, List.find?_cons_of_neg _ (by simp [hk])]
      have hih := ih hpresent2
      rw [pyDictGet] at hih
      exact hih

/-! ### Outstanding-response queue lemmas -/

theorem range_append_range' (m n : Nat) (h : m ≤ n) :
    List.range m ++ List.range' m (n - m) = List.range n := by
  rw [List.range_eq_range', List.range_eq_range']
  rw [show List.range' m (n - m) = List.range' (0 + 1 * m) (n - m) from by simp]
  rw [List.range'_append 0 m (n - m) 1]
  congr 1
  omega

theorem protocolStep_inv (st : ProtocolState) (h : C6Inv st) (op : ProtocolOp) :
    C6Inv (protocolStep st op) := by
  obtain ⟨h1, h2, h3⟩ := h
  cases op with
  | sendAndWait =>
    unfold protocolStep sendPacketAndWaitEnqueue
    by_cases hc : st.closed
    · rw [if_pos hc]
      exact ⟨h1, h2, h3⟩
    · rw [if_neg hc]
      refine ⟨h1, ?_, by simp only; omega⟩
      simp only
      rw [h2, show st.nextId + 1 - st.completed.length = (st.nextId - st.completed.length) + 1
        from by omega, List.range'_1_concat]
      congr 2
      omega
  | codecError =>
    exact ⟨h1, h2, h3⟩
  | connLost err =>
    unfold protocolStep connectionLost
    simp only
    by_cases he : st.errorStored
    · rw [if_pos he]
      refine ⟨?_, ?_, ?_⟩
      · simp only [List.map_append, List.map_map, List.length_append, List.length_map]
        rw [show (Prod.fst ∘ fun f => (f, C6Outcome.failed C6Err.codecError)) = id from rfl,
          List.map_id, h1, h2, List.length_range', range_append_range' _ _ h3]
        congr 1
        omega
      · simp only [List.length_append, List.length_map]
        rw [h2, List.length_range']
        rw [show st.nextId - (st.completed.length + (st.nextId - st.completed.length)) = 0
          from by omega]
        rfl
      · simp only [List.length_append, List.length_map]
        rw [h2, List.length_range']
        omega
    · rw [if_neg he]
      refine ⟨?_, ?_, ?_⟩
      · simp only [List.map_append, List.map_map, List.length_append, List.length_map]
        rw [show (Prod.fst ∘ fun f =>
            (f, C6Outcome.failed (err.getD C6Err.connectionClosedError))) = id from rfl,
          List.map_id, h1, h2, List.length_range', range_append_range' _ _ h3]
        congr 1
        omega
      · simp only [List.length_append, List.length_map]
        rw [h2, List.length_range']
        rw [show st.nextId - (st.completed.length + (st.nextId - st.completed.length)) = 0
          from by omega]
        rfl
      · simp only [List.length_append, List.length_map]
        rw [h2, List.length_range']
        omega
  | recvPacket p =>
    unfold protocolStep deliverPacket
    cases p with
    | heartbeat => exact ⟨h1, h2, h3⟩
    | login u pw => exact ⟨h1, h2, h3⟩
    | message u m => exact ⟨h1, h2, h3⟩
    | logout => exact ⟨h1, h2, h3⟩
    | response code =>
      simp only
      unfold resolveNextResponse
      cases hq : st.queue with
      | nil => exact ⟨h1, h2, h3⟩
      | cons f rest =>
        rw [h2] at hq
        have hlen : st.nextId - st.completed.length ≠ 0 := by
          intro h0
          rw [h0] at hq
          exact absurd hq (by simp)
        obtain ⟨len1, hlen1⟩ : ∃ l, st.nextId - st.completed.length = l + 1 :=
          ⟨st.nextId - st.completed.length - 1, by omega⟩
        rw [hlen1, List.range'_succ] at hq
        injection hq with hf hrest
        refine ⟨?_, ?_, ?_⟩
        · simp only [List.map_append, List.length_append, List.map_cons, List.map_nil,
            List.length_cons, List.length_nil]
          rw [h1, ← hf]
          rw [show st.completed.length + (0 + 1) = st.completed.length + 1 from by omega,
            List.range_succ]
        · simp only [List.length_append, List.length_cons, List.length_nil]
          rw [← hrest]
          congr 1 <;> omega
        · simp only [List.length_append, List.length_cons, List.length_nil]
          omega

theorem protocolRun_inv_aux :
    ∀ (ops : List ProtocolOp) (st : ProtocolState), C6Inv st →
      C6Inv (ops.foldl protocolStep st) := by
  intro ops
  induction ops with
  | nil => exact fun st h => h
  | cons op ops ih =>
    intro st h
    exact ih (protocolStep st op) (protocolStep_inv st h op)

theorem protocolRun_inv (ops : List ProtocolOp) : C6Inv (protocolRun ops) :=
  protocolRun_inv_aux ops initialProtocolState ⟨rfl, rfl, Nat.le_refl 0⟩

theorem connLost_clears_queue (st : ProtocolState) (err : Option C6Err) :
    (connectionLost st err).queue = [] := by
  unfold connectionLost
  split <;> rfl

/-! ### Claim C6: outstanding-response queue invariant -/

/-- C6: the pending-completion queue is FIFO — completions happen in exactly
the order the futures were enqueued by send_and_wait; after a
connection_lost every enqueued future has been completed (resolved by an
inbound RESPONSE or failed with the close or codec error) and none is left
pending; an inbound RESPONSE resolves precisely the oldest pending future
with itself (so two back-to-back send_and_wait calls receive the first and
the second RESPONSE respectively); and a RESPONSE arriving with no pending
future completes nothing and raises nothing, the packet still being
delivered as a packet_received event. -/
theorem c6_response_queue :
    (∀ ops : List ProtocolOp,
      (protocolRun ops).completed.map Prod.fst = List.range (protocolRun ops).completed.length) ∧
    (∀ (ops : List ProtocolOp) (err : Option C6Err),
      (protocolRun (ops ++ [.connLost err])).queue = [] ∧
      (protocolRun (ops ++ [.connLost err])).completed.map Prod.fst =
        List.range (protocolRun (ops ++ [.connLost err])).nextId) ∧
    (∀ (st : ProtocolState) (f : Nat) (rest : List Nat) (code : ResponseCode),
      st.queue = f :: rest →
      (deliverPacket st (.response code)).completed =
        st.completed ++ [(f, .resolved (some code))] ∧
      (deliverPacket st (.response code)).queue = rest ∧
      (deliverPacket st (.response code)).events =
        st.events ++ [.packetReceived (.response code)]) ∧
    (∀ (st : ProtocolState) (code : ResponseCode),
      st.queue = [] →
      (deliverPacket st (.response code)).completed = st.completed ∧
      (deliverPacket st (.response code)).queue = [] ∧
      (deliverPacket st (.response code)).events =
        st.events ++ [.packetReceived (.response code)]) ∧
    (∀ r1 r2 : ResponseCode,
      (protocolRun [.sendAndWait, .sendAndWait,
        .recvPacket (.response r1), .recvPacket (.response r2)]).completed =
        [(0, .resolved (some r1)), (1, .resolved (some r2))]) := by
  refine ⟨fun ops => (protocolRun_inv ops).1, ?_, ?_, ?_, ?_⟩
  · intro ops err
    obtain ⟨h1, h2, h3⟩ := protocolRun_inv (ops ++ [.connLost err])
    have hq : (protocolRun (ops ++ [.connLost err])).queue = [] := by
      rw [protocolRun, List.foldl_append]
      simp only [List.foldl_cons, List.foldl_nil]
      exact connLost_clears_queue _ err
    refine ⟨hq, ?_⟩
    have hn : (protocolRun (ops ++ [.connLost err])).completed.length =
        (protocolRun (ops ++ [.connLost err])).nextId := by
      rw [hq] at h2
      have hlen := congrArg List.length h2
      simp only [List.length_nil, List.length_range'] at hlen
      omega
    rw [h1, hn]
  · intro st f rest code hq
    simp [deliverPacket, resolveNextResponse, hq]
  · intro st code hq
    simp [deliverPacket, resolveNextResponse, hq]
  · intro r1 r2
    rfl

/-- C6 witness: the queue theorem applied to concrete runs — the run with a
single outstanding send_and_wait whose next inbound RESPONSE(OK) resolves
future 0; the back-to-back pairing run with RESPONSE(OK) then
RESPONSE(GENERIC_ERROR); and a close after one enqueue leaving no pending
future. -/
theorem c6_response_queue_witness :
    ((protocolRun [.sendAndWait]).queue = [0] ∧
      (deliverPacket (protocolRun [.sendAndWait]) (.response .ok)).completed =
        (protocolRun [.sendAndWait]).completed ++ [(0, .resolved (some .ok))] ∧
      (deliverPacket (protocolRun [.sendAndWait]) (.response .ok)).queue = []) ∧
    (protocolRun [.sendAndWait, .sendAndWait,
      .recvPacket (.response .ok), .recvPacket (.response .genericError)]).completed =
      [(0, .resolved (some .ok)), (1, .resolved (some .genericError))] ∧
    (protocolRun ([.sendAndWait] ++ [.connLost none])).queue = [] := by
  have hq : (protocolRun [.sendAndWait]).queue = [0] := rfl
  have h3 := c6_response_queue.2.2.1 (protocolRun [.sendAndWait]) 0 [] .ok hq
  exact ⟨⟨hq, h3.1, h3.2.1⟩, c6_response_queue.2.2.2.2 .ok .genericError,
    (c6_response_queue.2.1 [.sendAndWait] none).1⟩

/-! ### Claim C5: LOGIN dispatch -/

/-- C5: valid_username holds exactly when the length is between 3 and 12 and
every character is alphanumeric ASCII; and LoginPacketHandler replies
INVALID_USERNAME for an invalid username, else TAKEN_USERNAME when some
connection already holds the username, else WRONG_PASSWORD when the supplied
password differs from server_password (absent equal to absent matches), and
otherwise sends OK, sets the connection's username and emits user_joined. -/
theorem c5_login_dispatch :
    (∀ u : PyStr, validUsername u = true ↔
      (3 ≤ u.length ∧ u.length ≤ 12 ∧ ∀ c ∈ u, isAlnumChar c = true)) ∧
    (∀ (net : ServerNetworking) (proto : Nat) (u : PyStr) (pw : Option PyStr),
      (validUsername u = false →
        handleLoginPacket net proto u pw = .ok ⟨[.response .invalidUsername], [], [], net⟩) ∧
      (validUsername u = true → usernameIsTaken net u = true →
        handleLoginPacket net proto u pw = .ok ⟨[.response .takenUsername], [], [], net⟩) ∧
      (validUsername u = true → usernameIsTaken net u = false → pw ≠ net.server_password →
        handleLoginPacket net proto u pw = .ok ⟨[.response .wrongPassword], [], [], net⟩) ∧
      (∀ conn : Connection, validUsername u = true → usernameIsTaken net u = false →
        pw = net.server_password → pyDictGet net.connections proto = .ok conn →
        handleLoginPacket net proto u pw =
          .ok ⟨[.response .ok], [.userJoined proto u], [],
            { net with connections :=
                pyDictSet net.connections proto { conn with username := some u } }⟩)) := by
  constructor
  · intro u
    unfold validUsername reFullmatchAlnumPlus
    constructor
    · intro h
      simp only [Bool.and_eq_true, decide_eq_true_eq, Bool.not_eq_true', List.all_eq_true] at h
      exact ⟨h.1.1, h.1.2, h.2.2⟩
    · rintro ⟨h1, h2, h4⟩
      cases u with
      | nil => simp at h1
      | cons c cs =>
        simp only [Bool.and_eq_true, decide_eq_true_eq, Bool.not_eq_true', List.all_eq_true]
        exact ⟨⟨h1, h2⟩, rfl, h4⟩
  · intro net proto u pw
    refine ⟨?_, ?_, ?_, ?_⟩
    · intro hv
      unfold handleLoginPacket
      rw [hv]
      rfl
    · intro hv ht
      unfold handleLoginPacket
      rw [hv, ht]
      rfl
    · intro hv ht hp
      unfold handleLoginPacket
      rw [hv, ht]
      simp only [Bool.not_true, Bool.false_eq_true, if_false]
      rw [if_pos hp]
    · intro conn hv ht hp hget
      unfold handleLoginPacket
      rw [hv, ht, hget]
      simp only [Bool.not_true, Bool.false_eq_true, if_false]
      rw [if_neg (by simp [hp])]

/-- C5 witness: the dispatch theorem applied on concrete server states to
each of the four outcomes (invalid, taken, wrong password, success). -/
theorem c5_login_dispatch_witness :
    handleLoginPacket ⟨some ['p', 'w'], [(1, ⟨none, 0, none⟩)]⟩ 1 ['a', 'b'] (some ['p', 'w']) =
      .ok ⟨[.response .invalidUsername], [], [],
        ⟨some ['p', 'w'], [(1, ⟨none, 0, none⟩)]⟩⟩ ∧
    handleLoginPacket
        ⟨some ['p', 'w'], [(1, ⟨some ['b', 'o', 'b'], 0, none⟩), (2, ⟨none, 0, none⟩)]⟩
        2 ['b', 'o', 'b'] (some ['p', 'w']) =
      .ok ⟨[.response .takenUsername], [], [],
        ⟨some ['p', 'w'], [(1, ⟨some ['b', 'o', 'b'], 0, none⟩), (2, ⟨none, 0, none⟩)]⟩⟩ ∧
    handleLoginPacket ⟨some ['p', 'w'], [(1, ⟨none, 0, none⟩)]⟩ 1 ['b', 'o', 'b'] none =
      .ok ⟨[.response .wrongPassword], [], [],
        ⟨some ['p', 'w'], [(1, ⟨none, 0, none⟩)]⟩⟩ ∧
    handleLoginPacket ⟨none, [(1, ⟨none, 0, none⟩)]⟩ 1 ['b', 'o', 'b'] none =
      .ok ⟨[.response .ok], [.userJoined 1 ['b', 'o', 'b']], [],
        ⟨none, [(1, ⟨some ['b', 'o', 'b'], 0, none⟩)]⟩⟩ := by
  refine ⟨?_, ?_, ?_, ?_⟩
  · exact (c5_login_dispatch.2 _ 1 _ _).1 (by decide)
  · exact (c5_login_dispatch.2 _ 2 _ _).2.1 (by decide) (by decide)
  · exact (c5_login_dispatch.2 _ 1 _ _).2.2.1 (by decide) (by decide) (by decide)
  · have h := (c5_login_dispatch.2 ⟨none, [(1, ⟨none, 0, none⟩)]⟩ 1 ['b', 'o', 'b'] none).2.2.2
      ⟨none, 0, none⟩ (by decide) (by decide) (by decide) (by decide)
    rw [h]
    rfl

/-! ### Claim C7: graceful logout single-fire -/

/-- C7: processing a LOGOUT on a logged-in connection emits exactly one
user_left event with err absent, clears the connection's username and closes
the stream; the subsequent connection-close callback for that connection
finds the username already cleared and emits no second user_left. -/
theorem c7_logout_single_fire (net : ServerNetworking) (proto : Nat) (conn : Connection)
    (u : PyStr) (err2 : Option SrvErr)
    (hget : pyDictGet net.connections proto = .ok conn)
    (hu : conn.username = some u) :
    handleLogoutPacket net proto =
      .ok ⟨[], [.userLeft proto u none], [proto],
        { net with connections :=
            pyDictSet net.connections proto { conn with username := none } }⟩ ∧
    onConnectionClose
        { net with connections :=
            pyDictSet net.connections proto { conn with username := none } } proto err2 =
      .ok ([],
        { net with connections :=
            ((pyDictSet net.connections proto { conn with username := none }).filter
              (fun kv => decide (¬ kv.1 = proto))) }) := by
  have hpresent : net.connections.any (fun kv => decide (kv.1 = proto)) = true :=
    keyPresent_of_get net.connections proto conn hget
  constructor
  · unfold handleLogoutPacket
    rw [hget]
    simp only
    rw [hu]
  · have hget2 : pyDictGet (pyDictSet net.connections proto { conn with username := none })
        proto = .ok { conn with username := none } :=
      pyDictGet_set_self net.connections proto { conn with username := none } hpresent
    have hpresent2 : (pyDictSet net.connections proto { conn with username := none }).any
        (fun kv => decide (kv.1 = proto)) = true :=
      keyPresent_of_get _ proto _ hget2
    unfold onConnectionClose
    rw [hget2]
    simp only [usernameTruthy, Bool.false_eq_true, if_false]
    rw [pyDictDel, if_pos hpresent2]

/-- C7 witness: the logout theorem applied to a concrete one-connection
server with user 'bob' logged in. -/
theorem c7_logout_single_fire_witness :
    handleLogoutPacket ⟨none, [(1, ⟨some ['b', 'o', 'b'], 0, none⟩)]⟩ 1 =
      .ok ⟨[], [.userLeft 1 ['b', 'o', 'b'] none], [1],
        ⟨none, [(1, ⟨none, 0, none⟩)]⟩⟩ ∧
    onConnectionClose ⟨none, [(1, ⟨none, 0, none⟩)]⟩ 1 none =
      .ok ([], ⟨none, []⟩) := by
  have h := c7_logout_single_fire ⟨none, [(1, ⟨some ['b', 'o', 'b'], 0, none⟩)]⟩ 1
    ⟨some ['b', 'o', 'b'], 0, none⟩ ['b', 'o', 'b'] none (by decide) (by decide)
  constructor
  · rw [h.1]
    decide
  · decide

/-! ### Claim C8: user_left for an unknown username -/

/-- C8 counterexample: handling a user_left for a username not in the roster
is not a no-op — on_user_left deletes the username from connected_users
unconditionally, and with 'alice' as the only user a user_left for 'ghost'
raises KeyError instead of being ignored. -/
theorem c8_unknown_user_left_counterexample :
    onUserLeft ⟨[(['a', 'l', 'i', 'c', 'e'], 1)]⟩ ['g', 'h', 'o', 's', 't'] none =
      .error .keyError := by
  rfl

/-- C8 (amended): for every user_left event whose username is not in the
server application's roster, the handler raises KeyError from the roster
deletion; nothing is broadcast and no state is returned (the del statement
fails before any mutation). -/
theorem c8_unknown_user_left (app : ServerApplication) (u : PyStr) (err : Option SrvErr)
    (h : app.connected_users.any (fun kv => decide (kv.1 = u)) = false) :
    onUserLeft app u err = .error .keyError := by
  unfold onUserLeft pyDictDel
  rw [h]
  rfl

/-- C8 witness: the amended theorem applied to the roster holding only
'alice', with the event naming 'ghost'. -/
theorem c8_unknown_user_left_witness :
    (ServerApplication.mk [(['a', 'l', 'i', 'c', 'e'], 1)]).connected_users.any
      (fun kv => decide (kv.1 = ['g', 'h', 'o', 's', 't'])) = false ∧
    onUserLeft ⟨[(['a', 'l', 'i', 'c', 'e'], 1)]⟩ ['g', 'h', 'o', 's', 't'] (some .connectionClosed) =
      .error .keyError :=
  ⟨by decide, c8_unknown_user_left ⟨[(['a', 'l', 'i', 'c', 'e'], 1)]⟩ ['g', 'h', 'o', 's', 't']
    (some .connectionClosed) (by decide)⟩

/-! ### Claim C9: heartbeat eviction -/

/-- C9 evaluation at the failing input: for a logged-in connection,
Connection.is_alive always raises AttributeError — the read
self.protocol.is_connected names an attribute ChatProtocol does not define —
so a monitor tick over a server with one logged-in connection whose
last heartbeat is 16 seconds old raises AttributeError instead of evicting
it, and even a freshly heartbeating connection raises the same error, which
escapes monitor_heartbeats and kills the monitor task. -/
theorem c9_monitor_attribute_error :
    isAlive 16 ⟨some ['a', 'l', 'i', 'c', 'e'], 0, none⟩ = .error .attributeError ∧
    isAlive 16 ⟨some ['b', 'o', 'b'], 0, some 15⟩ = .error .attributeError ∧
    monitorTick ⟨none, [(1, ⟨some ['a', 'l', 'i', 'c', 'e'], 0, none⟩)]⟩ 16 =
      .error .attributeError ∧
    monitorTick ⟨none, [(1, ⟨some ['b', 'o', 'b'], 0, some 15⟩)]⟩ 16 =
      .error .attributeError :=
  ⟨rfl, rfl, rfl, rfl⟩

/-! ### Claim C2: MESSAGE dispatch and broadcast -/

/-- C2 evaluation at the failing input: with alice (protocol 1) and bob
(protocol 2) logged in, alice's MESSAGE 'hi' is answered with OK and the
handler emits message_received with the two arguments (sender, text); but
binding those two arguments to ServerApplication.on_message_received, whose
three positional parameters are (_protocol, sender, message), raises
TypeError, so the listener never runs and no MESSAGE reaches bob.  The
reply side of the claim holds — a connection without a username or an
invalid message text gets INVALID_MESSAGE — and broadcast_message itself,
were it reached, would deliver to every user except the sender and to
everyone for a system message. -/
theorem c2_message_dispatch :
    handleMessagePacket
        ⟨none, [(1, ⟨some ['a', 'l', 'i', 'c', 'e'], 0, none⟩),
          (2, ⟨some ['b', 'o', 'b'], 0, none⟩)]⟩ 1 ['h', 'i'] =
      .ok ([.response .ok], [[.strArg ['a', 'l', 'i', 'c', 'e'], .strArg ['h', 'i']]]) ∧
    bindPositional onMessageReceivedParams
        [.strArg ['a', 'l', 'i', 'c', 'e'], .strArg ['h', 'i']] = .error .typeError ∧
    handleMessagePacket
        ⟨none, [(1, ⟨some ['a', 'l', 'i', 'c', 'e'], 0, none⟩), (3, ⟨none, 0, none⟩)]⟩
        3 ['h', 'i'] =
      .ok ([.response .invalidMessage], []) ∧
    handleMessagePacket
        ⟨none, [(1, ⟨some ['a', 'l', 'i', 'c', 'e'], 0, none⟩)]⟩ 1 [] =
      .ok ([.response .invalidMessage], []) ∧
    broadcastMessage ⟨[(['a', 'l', 'i', 'c', 'e'], 1), (['b', 'o', 'b'], 2)]⟩
        (some ['a', 'l', 'i', 'c', 'e']) ['h', 'i'] =
      [⟨2, .message (some ['a', 'l', 'i', 'c', 'e']) ['h', 'i']⟩] ∧
    broadcastMessage ⟨[(['a', 'l', 'i', 'c', 'e'], 1), (['b', 'o', 'b'], 2)]⟩ none ['h', 'i'] =
      [⟨1, .message none ['h', 'i']⟩, ⟨2, .message none ['h', 'i']⟩] := by
  refine ⟨?_, rfl, ?_, ?_, ?_, ?_⟩ <;> decide

end EchoSphere
